import Mathlib

/-!
# Verification of the two-tier cache (CacheService)

Shallow embedding of the `CacheService` class of the repository
(src/unnamed/part_001 and src/unnamed/part_002; the two variants are
behaviourally identical for everything proved here): a Redis-backed
remote store with an in-process `Map` fallback.

Modelling choices, all taken from the source:
* The JS `Map<string, CacheEntry>` becomes an association list with
  `mapSet`/`mapGet`/`mapDelete` mirroring `Map.set`/`Map.get`/`Map.delete`
  semantics (set replaces the previous binding for the key).
* `CacheEntry { data: any, timestamp: number }` becomes `CacheEntry α`
  with an `Int` millisecond timestamp; the payload type is a parameter.
* The Redis client is modelled semantically: the remote store is a map
  from key to a stored entry plus an optional native-expiry deadline
  (`setEx key (ceil ttlMs / 1000) v` installs deadline
  `now + ceil(ttlMs/1000)*1000`; a `get` at a time `now` past the
  deadline answers nil, as Redis does).  Whether `redisClient` is null
  is the boolean `hasClient`.
* Every network call can fail: each public operation takes a `fault`
  flag saying whether the remote call made during it throws.  A remote
  primitive returns `Except RemoteErr`; the `try`/`catch` blocks of the
  source are translated exactly where they stand, so the public
  operations return `Except RemoteErr` as well and an uncaught error in
  the source would show up as an `.error` result here.
* `Date.now()` is passed in as an explicit `now : Int` argument.
-/

namespace BtcCache

/-- `interface CacheEntry { data: any; timestamp: number }`. -/
structure CacheEntry (α : Type) where
  data : α
  timestamp : Int
deriving DecidableEq, Repr

/-- A value as held by Redis: the serialized entry plus the native
expiry deadline installed by `setEx` (absent for plain `set`). -/
structure RemoteEntry (α : Type) where
  entry : CacheEntry α
  expireAt : Option Int
deriving DecidableEq, Repr

/-- `Map.get` semantics on an association list. -/
def mapGet {β : Type} (m : List (String × β)) (k : String) : Option β :=
  (m.find? (fun p => p.1 == k)).map (fun p => p.2)

/-- `Map.delete` semantics on an association list. -/
def mapDelete {β : Type} (m : List (String × β)) (k : String) : List (String × β) :=
  m.filter (fun p => p.1 != k)

/-- `Map.set` semantics on an association list: replace any previous
binding of the key. -/
def mapSet {β : Type} (m : List (String × β)) (k : String) (v : β) : List (String × β) :=
  (k, v) :: mapDelete m k

/-- An error thrown by the Redis client during an operation. -/
inductive RemoteErr where
  | fault
deriving DecidableEq, Repr

/-- What `redisClient.get` answers at time `now`, honouring native
expiry: nil once `now` has reached the `setEx` deadline. -/
def remoteLookup {α : Type} (r : List (String × RemoteEntry α)) (k : String) (now : Int) :
    Option (CacheEntry α) :=
  match mapGet r k with
  | none => none
  | some re =>
    match re.expireAt with
    | none => some re.entry
    | some dl => if now < dl then some re.entry else none

/-- `await redisClient.get(key)`: throws on a fault, otherwise answers
the (non-expired) stored value. -/
def remoteGet {α : Type} (r : List (String × RemoteEntry α)) (k : String) (now : Int)
    (fault : Bool) : Except RemoteErr (Option (CacheEntry α)) :=
  if fault then .error .fault else .ok (remoteLookup r k now)

/-- `await redisClient.set(key, value)` (no expiry). -/
def remoteSetPlain {α : Type} (r : List (String × RemoteEntry α)) (k : String)
    (e : CacheEntry α) (fault : Bool) : Except RemoteErr (List (String × RemoteEntry α)) :=
  if fault then .error .fault else .ok (mapSet r k ⟨e, none⟩)

/-- `await redisClient.setEx(key, ttlSec, value)`: stores with a native
expiry deadline `now + ttlSec * 1000`. -/
def remoteSetEx {α : Type} (r : List (String × RemoteEntry α)) (k : String) (ttlSec : Int)
    (e : CacheEntry α) (now : Int) (fault : Bool) :
    Except RemoteErr (List (String × RemoteEntry α)) :=
  if fault then .error .fault else .ok (mapSet r k ⟨e, some (now + ttlSec * 1000)⟩)

/-- `await redisClient.del(key)`. -/
def remoteDel {α : Type} (r : List (String × RemoteEntry α)) (k : String) (fault : Bool) :
    Except RemoteErr (List (String × RemoteEntry α)) :=
  if fault then .error .fault else .ok (mapDelete r k)

/-- `await redisClient.flushDb()`. -/
def remoteFlush {α : Type} (_r : List (String × RemoteEntry α)) (fault : Bool) :
    Except RemoteErr (List (String × RemoteEntry α)) :=
  if fault then .error .fault else .ok []

/-- The state of a `CacheService` instance together with the contents of
the external Redis database it talks to.

* `hasClient` — whether `redisClient` is non-null;
* `isRedisConnected` — the connection-health flag;
* `globalCache` — the in-memory `Map<string, CacheEntry>`;
* `connectionAttempted` — the one-shot guard of `initializeRedis`;
* `remote` — the contents of the external Redis database. -/
structure CacheService (α : Type) where
  hasClient : Bool
  isRedisConnected : Bool
  globalCache : List (String × CacheEntry α)
  connectionAttempted : Bool
  remote : List (String × RemoteEntry α)
deriving DecidableEq, Repr

/-- `CacheService.get(key)` (source lines 112–135 of part_002).  Try
Redis first when connected; a truthy reply is parsed and returned
without consulting the memory map; a Redis error is caught, flips
`isRedisConnected` to false and falls through; then the in-memory map
is consulted. -/
def CacheService.get {α : Type} (s : CacheService α) (k : String) (now : Int) (fault : Bool) :
    Except RemoteErr (CacheService α × Option (CacheEntry α)) :=
  if s.isRedisConnected && s.hasClient then
    match remoteGet s.remote k now fault with
    | .ok (some redisValue) => .ok (s, some redisValue)
    | .ok none => .ok (s, mapGet s.globalCache k)
    | .error _ =>
      .ok ({ s with isRedisConnected := false }, mapGet s.globalCache k)
  else
    .ok (s, mapGet s.globalCache k)

/-- `CacheService.set(key, data, ttlMs?)` (source lines 137–164).  The
entry is timestamped with `Date.now()`.  When connected, the write goes
to Redis (`setEx` with `Math.ceil(ttlMs/1000)` seconds when
`ttlMs && ttlMs > 0`, plain `set` otherwise) and the method returns
without touching the memory map; a Redis error is caught, flips
`isRedisConnected` to false and falls through to the memory write. -/
def CacheService.set {α : Type} (s : CacheService α) (k : String) (v : α) (ttlMs : Option Int)
    (now : Int) (fault : Bool) : Except RemoteErr (CacheService α) :=
  let entry : CacheEntry α := ⟨v, now⟩
  if s.isRedisConnected && s.hasClient then
    match (match ttlMs with
           | some t =>
             if 0 < t then remoteSetEx s.remote k ((t + 999) / 1000) entry now fault
             else remoteSetPlain s.remote k entry fault
           | none => remoteSetPlain s.remote k entry fault) with
    | .ok r' => .ok { s with remote := r' }
    | .error _ =>
      .ok { s with isRedisConnected := false, globalCache := mapSet s.globalCache k entry }
  else
    .ok { s with globalCache := mapSet s.globalCache k entry }

/-- `CacheService.delete(key)` (source lines 166–178).  Redis `del` is
attempted when connected; an error is caught and ignored (no state
change); the memory map entry is always deleted. -/
def CacheService.delete {α : Type} (s : CacheService α) (k : String) (fault : Bool) :
    Except RemoteErr (CacheService α) :=
  let s1 :=
    if s.isRedisConnected && s.hasClient then
      match remoteDel s.remote k fault with
      | .ok r' => { s with remote := r' }
      | .error _ => s
    else s
  .ok { s1 with globalCache := mapDelete s1.globalCache k }

/-- `CacheService.clear()` (source lines 180–192).  Redis `flushDb` is
attempted when connected; an error is caught and ignored; the memory
map is always cleared. -/
def CacheService.clear {α : Type} (s : CacheService α) (fault : Bool) :
    Except RemoteErr (CacheService α) :=
  let s1 :=
    if s.isRedisConnected && s.hasClient then
      match remoteFlush s.remote fault with
      | .ok r' => { s with remote := r' }
      | .error _ => s
    else s
  .ok { s1 with globalCache := [] }

/-- `CacheService.clearExpiredEntries(maxAge)` (source lines 194–208):
collect every key whose entry satisfies `now - entry.timestamp >= maxAge`,
then delete those keys from the memory map. -/
def CacheService.clearExpiredEntries {α : Type} (s : CacheService α) (maxAge : Int)
    (now : Int) : CacheService α :=
  let keysToDelete :=
    (s.globalCache.filter (fun p => decide (maxAge ≤ now - p.2.timestamp))).map Prod.fst
  { s with globalCache := keysToDelete.foldl mapDelete s.globalCache }

/-- The record returned by `CacheService.getStats()`. -/
structure Stats where
  redisConnected : Bool
  memoryEntries : Nat
  connectionAttempted : Bool
deriving DecidableEq, Repr

/-- `CacheService.getStats()` (source lines 210–221). -/
def CacheService.getStats {α : Type} (s : CacheService α) : Stats :=
  ⟨s.isRedisConnected, s.globalCache.length, s.connectionAttempted⟩

/-- The environment variables read by `initializeRedis`. -/
structure Config where
  url : Option String
  host : Option String
  port : Option String
  username : Option String
  password : Option String
  database : Option String
deriving DecidableEq, Repr

/-- JS truthiness of an optional string (`undefined` and `""` are falsy). -/
def truthy : Option String → Bool
  | none => false
  | some s => s != ""

/-- The outcome of the network portion of a connection attempt: either
`connect()` succeeds (the `connect`/`ready` events set the health flag)
or it fails / times out (the `catch` clears the flag and nulls the
client). -/
inductive ConnectOutcome where
  | success
  | failure
deriving DecidableEq, Repr

/-- `CacheService.initializeRedis()` (source lines 22–110): a one-shot
guard on `connectionAttempted` (set before anything else); if neither
`REDIS_URL` nor `REDIS_HOST` is truthy, return without creating a
client; otherwise create the client and attempt to connect, with the
outcome abstracted by `ConnectOutcome`. -/
def CacheService.initializeRedis {α : Type} (s : CacheService α) (cfg : Config)
    (oc : ConnectOutcome) : CacheService α :=
  if s.connectionAttempted then s
  else
    let s1 := { s with connectionAttempted := true }
    if truthy cfg.url = false && truthy cfg.host = false then s1
    else
      match oc with
      | .success => { s1 with hasClient := true, isRedisConnected := true }
      | .failure => { s1 with hasClient := false, isRedisConnected := false }

/-- `new CacheService()`: fields start at their declared initial values
and the constructor invokes `initializeRedis`. -/
def CacheService.construct {α : Type} (cfg : Config) (oc : ConnectOutcome) : CacheService α :=
  CacheService.initializeRedis
    { hasClient := false
      isRedisConnected := false
      globalCache := []
      connectionAttempted := false
      remote := [] } cfg oc

/-! ## Example states used by concrete counterexamples and witnesses -/

/-- No environment configuration at all. -/
def cfgNone : Config := ⟨none, none, none, none, none, none⟩

/-- Local-only state: no client, not connected, empty memory map. -/
def sLocal : CacheService Int := ⟨false, false, [], true, []⟩

/-- Local-only state holding `"k" ↦ ⟨7, stored at 0⟩`. -/
def sLocalK : CacheService Int := ⟨false, false, [("k", ⟨7, 0⟩)], true, []⟩

/-- Local-only state holding `"a" ↦ ⟨1, stored at 0⟩`. -/
def sLocalA : CacheService Int := ⟨false, false, [("a", ⟨1, 0⟩)], true, []⟩

/-- Connected state with empty stores. -/
def sConn : CacheService Int := ⟨true, true, [], true, []⟩

/-- Connected state where both stores hold `"a" ↦ ⟨1, stored at 0⟩`
(the remote copy without native expiry). -/
def sConnWith : CacheService Int := ⟨true, true, [("a", ⟨1, 0⟩)], true, [("a", ⟨⟨1, 0⟩, none⟩)]⟩

/-- `sConnWith` after the memory-map entry is removed: the remote copy
of `"a"` survives. -/
def sConnWithDel : CacheService Int := ⟨true, true, [], true, [("a", ⟨⟨1, 0⟩, none⟩)]⟩

/-- Connected state whose remote store holds `"a"` with a native-expiry
deadline of 1000 ms and whose memory map is empty. -/
def sConnExp : CacheService Int := ⟨true, true, [], true, [("a", ⟨⟨1, 0⟩, some 1000⟩)]⟩

/-- `sConn` after a failed remote `set` of `"a" ↦ 5` at time 0: the
health flag dropped and the entry fell back to the memory map. -/
def sConnSetFail : CacheService Int := ⟨true, false, [("a", ⟨5, 0⟩)], true, []⟩

/-- `sConn` after a remote `get` fault: client kept, flag dropped. -/
def sDegraded : CacheService Int := ⟨true, false, [], true, []⟩

/-- Local-only state with a stale entry (`"a"`, age 1000 at time 1000)
and a fresh one (`"b"`, age 100 at time 1000). -/
def sSweep : CacheService Int := ⟨false, false, [("a", ⟨1, 0⟩), ("b", ⟨2, 900⟩)], true, []⟩

/-! ## Association-list lemmas -/

theorem mapGet_mapSet_self {β : Type} (m : List (String × β)) (k : String) (v : β) :
    mapGet (mapSet m k v) k = some v := by
  unfold mapGet mapSet
  rw [List.find?_cons_of_pos _ (by simp)]
  rfl

theorem mapGet_mapDelete_self {β : Type} (m : List (String × β)) (k : String) :
    mapGet (mapDelete m k) k = none := by
  unfold mapGet mapDelete
  rw [Option.map_eq_none', List.find?_eq_none]
  intro p hp
  rw [List.mem_filter] at hp
  simpa using hp.2

theorem mem_foldl_mapDelete {β : Type} :
    ∀ (ks : List String) (m : List (String × β)) (p : String × β),
      p ∈ ks.foldl mapDelete m → p ∈ m ∧ p.1 ∉ ks := by
  intro ks
  induction ks with
  | nil => exact fun m p h => ⟨h, by simp⟩
  | cons k ks ih =>
    intro m p h
    rw [List.foldl_cons] at h
    obtain ⟨hmem, hnot⟩ := ih (mapDelete m k) p h
    have hm : p ∈ m ∧ p.1 ≠ k := by
      simpa [mapDelete, List.mem_filter] using hmem
    exact ⟨hm.1, by simp [hm.2, hnot]⟩

/-! ## Operation traces

`Op` is one invocation of a public operation of the service (with its
explicit time and fault input), `step` runs it (the error branches of
the matches are unreachable: the operations never answer `.error`), and
`attemptFlips` counts, along a trace, the steps at which the
`connectionAttempted` flag of `getStats` moves from `false` to `true`. -/

inductive Op (α : Type) where
  | opGet (k : String) (now : Int) (fault : Bool)
  | opSet (k : String) (v : α) (ttlMs : Option Int) (now : Int) (fault : Bool)
  | opDelete (k : String) (fault : Bool)
  | opClear (fault : Bool)
  | opSweep (maxAge now : Int)
  | opConnect (cfg : Config) (oc : ConnectOutcome)

def step {α : Type} (s : CacheService α) : Op α → CacheService α
  | .opGet k now fault =>
    match CacheService.get s k now fault with
    | .ok p => p.1
    | .error _ => s
  | .opSet k v ttlMs now fault =>
    match CacheService.set s k v ttlMs now fault with
    | .ok s' => s'
    | .error _ => s
  | .opDelete k fault =>
    match CacheService.delete s k fault with
    | .ok s' => s'
    | .error _ => s
  | .opClear fault =>
    match CacheService.clear s fault with
    | .ok s' => s'
    | .error _ => s
  | .opSweep maxAge now => CacheService.clearExpiredEntries s maxAge now
  | .opConnect cfg oc => CacheService.initializeRedis s cfg oc

def attemptFlips {α : Type} (s : CacheService α) : List (Op α) → Nat
  | [] => 0
  | op :: rest =>
    (if s.connectionAttempted = false ∧ (step s op).connectionAttempted = true then 1 else 0)
      + attemptFlips (step s op) rest

theorem get_attempted {α : Type} {s : CacheService α} {k : String} {now : Int} {fault : Bool}
    {p : CacheService α × Option (CacheEntry α)}
    (h : CacheService.get s k now fault = .ok p) :
    p.1.connectionAttempted = s.connectionAttempted := by
  unfold CacheService.get at h
  split at h
  · split at h <;> (injection h with h; subst h; rfl)
  · injection h with h; subst h; rfl

theorem set_attempted {α : Type} {s : CacheService α} {k : String} {v : α} {ttlMs : Option Int}
    {now : Int} {fault : Bool} {s' : CacheService α}
    (h : CacheService.set s k v ttlMs now fault = .ok s') :
    s'.connectionAttempted = s.connectionAttempted := by
  simp only [CacheService.set] at h
  split at h
  all_goals (try split at h)
  all_goals (injection h with h; subst h; rfl)

theorem delete_attempted {α : Type} {s : CacheService α} {k : String} {fault : Bool}
    {s' : CacheService α} (h : CacheService.delete s k fault = .ok s') :
    s'.connectionAttempted = s.connectionAttempted := by
  unfold CacheService.delete at h
  injection h with h; subst h
  split <;> (try split) <;> rfl

theorem clear_attempted {α : Type} {s : CacheService α} {fault : Bool}
    {s' : CacheService α} (h : CacheService.clear s fault = .ok s') :
    s'.connectionAttempted = s.connectionAttempted := by
  unfold CacheService.clear at h
  injection h with h; subst h
  split <;> (try split) <;> rfl

theorem step_attempted {α : Type} (s : CacheService α) (op : Op α)
    (h : s.connectionAttempted = true) : (step s op).connectionAttempted = true := by
  cases op with
  | opGet k now fault =>
    simp only [step]
    cases hg : CacheService.get s k now fault with
    | ok p => exact (get_attempted hg).trans h
    | error e => exact h
  | opSet k v ttlMs now fault =>
    simp only [step]
    cases hg : CacheService.set s k v ttlMs now fault with
    | ok s' => exact (set_attempted hg).trans h
    | error e => exact h
  | opDelete k fault =>
    simp only [step]
    cases hg : CacheService.delete s k fault with
    | ok s' => exact (delete_attempted hg).trans h
    | error e => exact h
  | opClear fault =>
    simp only [step]
    cases hg : CacheService.clear s fault with
    | ok s' => exact (clear_attempted hg).trans h
    | error e => exact h
  | opSweep maxAge now => exact h
  | opConnect cfg oc =>
    simp only [step]
    unfold CacheService.initializeRedis
    rw [if_pos h]
    exact h

theorem attemptFlips_eq_zero {α : Type} (s : CacheService α) (ops : List (Op α))
    (h : s.connectionAttempted = true) : attemptFlips s ops = 0 := by
  induction ops generalizing s with
  | nil => rfl
  | cons op rest ih =>
    rw [attemptFlips, if_neg (by simp [h]),
      ih (step s op) (step_attempted s op h)]

theorem attemptFlips_le_one {α : Type} (s : CacheService α) (ops : List (Op α)) :
    attemptFlips s ops ≤ 1 := by
  induction ops generalizing s with
  | nil => exact Nat.zero_le 1
  | cons op rest ih =>
    by_cases h : s.connectionAttempted = true
    · rw [attemptFlips_eq_zero s (op :: rest) h]
      exact Nat.zero_le 1
    · rw [attemptFlips]
      by_cases h2 : (step s op).connectionAttempted = true
      · rw [attemptFlips_eq_zero (step s op) rest h2]
        split <;> omega
      · rw [if_neg (by simp [h2])]
        have := ih (step s op)
        omega

/-! ## Claim C1 -/

/-- C1 counterexample: with the Remote Connected and the remote write
succeeding, `set("a", 1, 1000)` does NOT write the entry to the Local
Store — the method returns after the Redis write, so the memory map
still has no entry for `"a"` (the write went only to the remote store).
This refutes "set always writes the entry to the Local Store regardless
of whether the Remote store is Connected". -/
theorem set_connected_skips_local_counterexample :
    (CacheService.set sConn "a" (1 : Int) (some 1000) 0 false).map
        (fun s' => (mapGet s'.globalCache "a", mapGet s'.remote "a")) =
      .ok (none, some ⟨⟨1, 0⟩, some 1000⟩) := by
  rfl

/-- C1 amended: `set` writes the entry to the Local Store exactly when
the Remote write did not succeed: with the Remote Connected and the
remote call succeeding, the Local Store is left unchanged; when the
Remote is not Connected (or has no client), or when the remote call
fails, the entry is written to the Local Store — so a Remote failure
never prevents the Local write. -/
theorem set_local_fallback {α : Type} (s : CacheService α) (k : String) (v : α)
    (ttlMs : Option Int) (now : Int) (fault : Bool) {s' : CacheService α}
    (h : CacheService.set s k v ttlMs now fault = .ok s') :
    ((s.isRedisConnected && s.hasClient) = true → fault = false →
        s'.globalCache = s.globalCache) ∧
    ((s.isRedisConnected && s.hasClient) = false →
        s'.globalCache = mapSet s.globalCache k ⟨v, now⟩) ∧
    (fault = true → s'.globalCache = mapSet s.globalCache k ⟨v, now⟩) := by
  simp only [CacheService.set] at h
  split at h
  · rename_i hg
    split at h
    · rename_i r' hP
      injection h with h; subst h
      refine ⟨fun _ _ => rfl, fun hg' => absurd hg (by simp [hg']), fun hf => ?_⟩
      exfalso
      subst hf
      cases ttlMs with
      | none => simp [remoteSetPlain] at hP
      | some t =>
        by_cases h0 : 0 < t <;> simp [h0, remoteSetEx, remoteSetPlain] at hP
    · rename_i e hP
      injection h with h; subst h
      refine ⟨fun _ hf => ?_, fun _ => rfl, fun _ => rfl⟩
      exfalso
      subst hf
      cases ttlMs with
      | none => simp [remoteSetPlain] at hP
      | some t =>
        by_cases h0 : 0 < t <;> simp [h0, remoteSetEx, remoteSetPlain] at hP
  · rename_i hg
    injection h with h; subst h
    exact ⟨fun hg' _ => absurd hg' hg, fun _ => rfl, fun _ => rfl⟩

/-- C1 witness: the amended claim applied at a Connected state whose
remote write faults: the entry lands in the Local Store. -/
theorem set_local_fallback_witness :
    ((sConn.isRedisConnected && sConn.hasClient) = true → true = false →
        sConnSetFail.globalCache = sConn.globalCache) ∧
    ((sConn.isRedisConnected && sConn.hasClient) = false →
        sConnSetFail.globalCache = mapSet sConn.globalCache "a" ⟨5, 0⟩) ∧
    (true = true → sConnSetFail.globalCache = mapSet sConn.globalCache "a" ⟨5, 0⟩) :=
  set_local_fallback sConn "a" (5 : Int) none 0 true rfl

/-! ## Claim C2 -/

/-- C2 counterexample: in Local-only mode, `set("k", 7, ttl 1000)` at
time 0 followed by `get("k")` at time 2000 — i.e. after the TTL has
elapsed — returns the entry (with its value 7), not absent: `get`
performs no staleness test at all. -/
theorem get_after_ttl_not_absent_counterexample :
    CacheService.set sLocal "k" (7 : Int) (some 1000) 0 false = .ok sLocalK ∧
    CacheService.get sLocalK "k" 2000 false = .ok (sLocalK, some ⟨7, 0⟩) ∧
    (1000 : Int) ≤ 2000 - 0 := by
  exact ⟨rfl, rfl, by norm_num⟩

/-- C2 amended: in Local-only mode (Remote never connected), `get(k)`
takes no TTL and performs no staleness test: called at any time after
`set(k, v, ttl)` — in particular after `ttl` has elapsed — it still
returns the stored entry.  The `now - storedAt >= maxAge` test is
applied only by the sweeper (`clearExpiredEntries`), not by `get`. -/
theorem get_ignores_ttl_after_set {α : Type} (s : CacheService α) (k : String) (v : α)
    (t now0 now1 : Int) (f1 f2 : Bool) {s' : CacheService α}
    (hconn : s.isRedisConnected = false)
    (hset : CacheService.set s k v (some t) now0 f1 = .ok s')
    (helapsed : t ≤ now1 - now0) :
    CacheService.get s' k now1 f2 = .ok (s', some ⟨v, now0⟩) := by
  have _ht := helapsed
  have hs' : { s with globalCache := mapSet s.globalCache k ⟨v, now0⟩ } = s' := by
    simpa [CacheService.set, hconn] using hset
  subst hs'
  simp [CacheService.get, hconn, mapGet_mapSet_self]

/-- C2 witness: the amended claim at concrete inputs (`set` at time 0
with ttl 1000, `get` at time 2000). -/
theorem get_ignores_ttl_after_set_witness :
    CacheService.get sLocalK "k" 2000 false = .ok (sLocalK, some ⟨7, 0⟩) :=
  get_ignores_ttl_after_set sLocal "k" (7 : Int) 1000 0 2000 false false rfl rfl
    (by norm_num)

/-! ## Claim C3 -/

/-- C3 (confirmed): for every state, key, value, ttl and per-call fault
choice, the four public operations `get`, `set`, `delete` and `clear`
answer `.ok`: every error raised by a remote call is absorbed by the
`try`/`catch` inside the operation (flipping the health flag or being
ignored) and never propagates to the caller. -/
theorem facade_never_throws {α : Type} (s : CacheService α) (k : String) (v : α)
    (ttlMs : Option Int) (now : Int) (f1 f2 f3 f4 : Bool) :
    (∃ p, CacheService.get s k now f1 = .ok p) ∧
    (∃ s', CacheService.set s k v ttlMs now f2 = .ok s') ∧
    (∃ s', CacheService.delete s k f3 = .ok s') ∧
    (∃ s', CacheService.clear s f4 = .ok s') := by
  refine ⟨?_, ?_, ⟨_, rfl⟩, ⟨_, rfl⟩⟩
  · by_cases hc : (s.isRedisConnected && s.hasClient) = true
    · cases hr : remoteGet s.remote k now f1 with
      | ok ov => cases ov <;> simp [CacheService.get, hc, hr]
      | error e => simp [CacheService.get, hc, hr]
    · simp [CacheService.get, hc]
  · by_cases hc : (s.isRedisConnected && s.hasClient) = true
    · cases ttlMs with
      | none => cases f2 <;> simp [CacheService.set, hc, remoteSetPlain]
      | some t =>
        by_cases h0 : 0 < t <;> cases f2 <;>
          simp [CacheService.set, hc, h0, remoteSetEx, remoteSetPlain]
    · simp [CacheService.set, hc]

/-! ## Claim C4 -/

/-- C4 (confirmed): a Remote connection is attempted at most once per
process lifetime: once `connectionAttempted` is true, `initializeRedis`
is an identity no-op (for any configuration and any connection
outcome); and along any trace of public operations — gets, sets,
deletes, clears, sweeps and further connect calls, with arbitrary
faults — the `connectionAttempted` flag reported by `getStats`
transitions from false to true at most once. -/
theorem connect_attempted_once {α : Type} (s : CacheService α) (cfg : Config)
    (oc : ConnectOutcome) (ops : List (Op α)) :
    (s.connectionAttempted = true → CacheService.initializeRedis s cfg oc = s) ∧
    attemptFlips s ops ≤ 1 :=
  ⟨fun h => by unfold CacheService.initializeRedis; rw [if_pos h],
   attemptFlips_le_one s ops⟩

/-- C4 witness: the no-op clause at a state that has already attempted,
plus the flip bound on a one-operation trace. -/
theorem connect_attempted_once_witness :
    CacheService.initializeRedis sConn cfgNone ConnectOutcome.success = sConn ∧
    attemptFlips sConn [Op.opClear false] ≤ 1 :=
  ⟨(connect_attempted_once sConn cfgNone ConnectOutcome.success [Op.opClear false]).1 rfl,
   (connect_attempted_once sConn cfgNone ConnectOutcome.success [Op.opClear false]).2⟩

/-! ## Claim C5 -/

/-- C5 counterexample: with neither a remote URL nor a host configured,
`stats()` right after construction reports `connectionAttempted = true`,
not `false` as claimed: `initializeRedis` sets the flag before it looks
at the configuration.  (The other two fields are as claimed.) -/
theorem stats_after_no_config_counterexample :
    CacheService.getStats (CacheService.construct (α := Int) cfgNone .failure) =
        ⟨false, 0, true⟩ ∧
    CacheService.getStats (CacheService.construct (α := Int) cfgNone .failure) ≠
        ⟨false, 0, false⟩ :=
  ⟨rfl, by decide⟩

/-- C5 amended: with no remote configuration, after construction (for
either connection outcome, which is never consulted) `stats()` returns
`{remoteConnected: false, localEntryCount: 0, connectionAttempted: true}`
— the flag is set even though no network connection is attempted — and
`set("a", 1, 1000)` followed by `get("a")` returns `1`. -/
theorem local_only_scenario (oc : ConnectOutcome) (f1 f2 : Bool) :
    CacheService.getStats (CacheService.construct (α := Int) cfgNone oc) =
        ⟨false, 0, true⟩ ∧
    ∃ s1, CacheService.set (CacheService.construct (α := Int) cfgNone oc) "a" (1 : Int)
            (some 1000) 0 f1 = .ok s1 ∧
          (CacheService.get s1 "a" 500 f2).map (fun p => p.2.map CacheEntry.data) =
            .ok (some 1) := by
  cases oc <;> exact ⟨rfl, _, rfl, rfl⟩

/-! ## Claim C6 -/

/-- C6 counterexample: `delete` (and likewise `clear`) invoked on a
Connected state with the remote call failing does NOT downgrade the
state to Degraded: the catch block ignores the error, so afterwards
`stats().remoteConnected` is still `true`.  This refutes "for every one
of the four operations ... afterwards the state is Degraded". -/
theorem delete_fault_not_degraded_counterexample :
    CacheService.delete sConnWith "a" true = .ok sConnWithDel ∧
    CacheService.clear sConnWith true = .ok sConnWithDel ∧
    (CacheService.getStats sConnWithDel).redisConnected = true :=
  ⟨rfl, rfl, rfl⟩

/-- C6 amended: on a runtime remote failure while Connected, `get` and
`set` downgrade the state to Degraded (`isRedisConnected := false`) —
`get` answers from the Local Store and `set` falls back to the Local
write — while `delete` and `clear` swallow the failure without touching
the connection flag; in all four cases the operation completes with
`.ok` (the failure is never propagated), `delete` still removes the
Local entry and `clear` still empties the Local Store. -/
theorem degraded_on_get_set_only {α : Type} (s : CacheService α) (k : String) (v : α)
    (ttlMs : Option Int) (now : Int)
    (hc : s.isRedisConnected = true) (hcl : s.hasClient = true) :
    CacheService.get s k now true =
        .ok ({ s with isRedisConnected := false }, mapGet s.globalCache k) ∧
    CacheService.set s k v ttlMs now true =
        .ok { s with isRedisConnected := false,
                     globalCache := mapSet s.globalCache k ⟨v, now⟩ } ∧
    (CacheService.delete s k true).map (fun s' => s'.isRedisConnected) =
        .ok s.isRedisConnected ∧
    (CacheService.clear s true).map (fun s' => s'.isRedisConnected) =
        .ok s.isRedisConnected ∧
    (CacheService.delete s k true).map (fun s' => mapGet s'.globalCache k) = .ok none ∧
    (CacheService.clear s true).map (fun s' => s'.globalCache) =
        .ok ([] : List (String × CacheEntry α)) := by
  refine ⟨?_, ?_, ?_, ?_, ?_, ?_⟩
  · simp [CacheService.get, remoteGet, hc, hcl]
  · cases ttlMs with
    | none => simp [CacheService.set, remoteSetPlain, hc, hcl]
    | some t =>
      by_cases h0 : 0 < t <;>
        simp [CacheService.set, remoteSetEx, remoteSetPlain, hc, hcl, h0]
  · simp [CacheService.delete, remoteDel, hc, hcl, Except.map]
  · simp [CacheService.clear, remoteFlush, hc, hcl, Except.map]
  · simp [CacheService.delete, remoteDel, hc, hcl, mapGet_mapDelete_self, Except.map]
  · simp [CacheService.clear, remoteFlush, hc, hcl, Except.map]

/-- C6 witness: the amended claim at a concrete Connected state. -/
theorem degraded_on_get_set_only_witness :
    CacheService.get sConnWith "a" 3 true =
        .ok ({ sConnWith with isRedisConnected := false }, mapGet sConnWith.globalCache "a") ∧
    CacheService.set sConnWith "a" (5 : Int) none 3 true =
        .ok { sConnWith with
              isRedisConnected := false
              globalCache := mapSet sConnWith.globalCache "a" ⟨5, 3⟩ } ∧
    (CacheService.delete sConnWith "a" true).map (fun s' => s'.isRedisConnected) =
        .ok sConnWith.isRedisConnected ∧
    (CacheService.clear sConnWith true).map (fun s' => s'.isRedisConnected) =
        .ok sConnWith.isRedisConnected ∧
    (CacheService.delete sConnWith "a" true).map (fun s' => mapGet s'.globalCache "a") =
        .ok none ∧
    (CacheService.clear sConnWith true).map (fun s' => s'.globalCache) =
        .ok ([] : List (String × CacheEntry Int)) :=
  degraded_on_get_set_only sConnWith "a" (5 : Int) none 3 rfl rfl

/-! ## Claim C7 -/

/-- C7 (confirmed): after `clearExpiredEntries(maxAge)` runs at time
`now`, every entry remaining in the Local Store satisfies
`now - storedAt < maxAge` — no remaining entry is stale at sweep
time. -/
theorem sweep_removes_all_stale {α : Type} (s : CacheService α) (maxAge now : Int)
    (k : String) (e : CacheEntry α)
    (h : (k, e) ∈ (CacheService.clearExpiredEntries s maxAge now).globalCache) :
    now - e.timestamp < maxAge := by
  simp only [CacheService.clearExpiredEntries] at h
  obtain ⟨hmem, hnot⟩ := mem_foldl_mapDelete _ _ _ h
  by_contra hge
  push_neg at hge
  exact hnot (List.mem_map.mpr
    ⟨(k, e), List.mem_filter.mpr ⟨hmem, by simpa using hge⟩, rfl⟩)

/-- C7 witness: sweeping `sSweep` (a stale `"a"` and a fresh `"b"`) at
time 1000 with `maxAge` 500 leaves `"b"`, which is indeed fresh. -/
theorem sweep_removes_all_stale_witness :
    ("b", (⟨2, 900⟩ : CacheEntry Int)) ∈
        (CacheService.clearExpiredEntries sSweep 500 1000).globalCache ∧
    (1000 : Int) - 900 < 500 :=
  ⟨by decide, sweep_removes_all_stale sSweep 500 1000 "b" ⟨2, 900⟩ (by decide)⟩

/-! ## Claim C8 -/

/-- C8 counterexample: `delete("a")` on a Connected state whose remote
`del` call fails leaves the remote copy of `"a"` alive, and a following
`get("a")` — the remote read now succeeding — returns that copy instead
of absent.  This refutes "after delete(k), get(k, anyTtl) returns
absent ... regardless of Remote connectivity". -/
theorem get_after_failed_remote_delete_counterexample :
    CacheService.delete sConnWith "a" true = .ok sConnWithDel ∧
    CacheService.get sConnWithDel "a" 5 false = .ok (sConnWithDel, some ⟨1, 0⟩) :=
  ⟨rfl, rfl⟩

/-- C8 amended: `delete` and `clear` always apply their effect to the
Local Store, whatever the Remote connectivity and whether or not the
remote call faults: after `delete(k)` the Local Store has no entry for
`k` (so a `get(k)` that does not hit a live Remote copy — in particular
whenever the state is not Connected — returns absent), and after
`clear()` the Local Store is empty (`stats().localEntryCount = 0`).
Only a surviving Remote copy can make a later `get(k)` non-absent. -/
theorem delete_clear_local_guaranteed {α : Type} (s : CacheService α) (k : String)
    (fdel fclear : Bool) {sd sc : CacheService α}
    (hdel : CacheService.delete s k fdel = .ok sd)
    (hclear : CacheService.clear s fclear = .ok sc) :
    mapGet sd.globalCache k = none ∧
    (∀ now f2, sd.isRedisConnected = false →
        CacheService.get sd k now f2 = .ok (sd, none)) ∧
    (CacheService.getStats sc).memoryEntries = 0 := by
  have h1 : mapGet sd.globalCache k = none := by
    simp only [CacheService.delete, Except.ok.injEq] at hdel
    subst hdel
    exact mapGet_mapDelete_self _ _
  refine ⟨h1, fun now f2 hflag => ?_, ?_⟩
  · simp [CacheService.get, hflag, h1]
  · simp only [CacheService.clear, Except.ok.injEq] at hclear
    subst hclear
    rfl

/-- C8 witness: the amended claim at a Local-only state holding `"a"`:
after `delete`/`clear` the Local Store no longer serves `"a"`. -/
theorem delete_clear_local_guaranteed_witness :
    mapGet sLocal.globalCache "a" = none ∧
    (∀ now f2, sLocal.isRedisConnected = false →
        CacheService.get sLocal "a" now f2 = .ok (sLocal, none)) ∧
    (CacheService.getStats sLocal).memoryEntries = 0 :=
  delete_clear_local_guaranteed sLocalA "a" false false rfl rfl

/-! ## Claim C9 -/

/-- C9 counterexample: with the Remote Connected,
`set("a", 1, ttl 1000ms)` at time 0 writes only to Redis, with native
expiry at time 1000; a retrieval at time 1000 — after the TTL has
elapsed, with no `delete`, `clear` or sweep in between — returns
absent, not the last stored value: no operation of the facade returns
the value once the Remote copy expires, because the Local Store never
received it.  (There is also no separate `getIgnoringTtl` method: `get`
itself is the only retrieval operation.) -/
theorem remote_native_expiry_counterexample :
    CacheService.set sConn "a" (1 : Int) (some 1000) 0 false = .ok sConnExp ∧
    CacheService.get sConnExp "a" 1000 false = .ok (sConnExp, none) :=
  ⟨rfl, rfl⟩

/-- C9 amended: the staleness-ignoring retrieval is `get` itself, and
only over the Local Store: whenever the Remote is not marked connected,
`get(k)` returns exactly the Local entry for `k` — whatever the current
time, so in particular long after the TTL supplied at `set` time — and
that entry persists until removed by `delete`/`clear` or the sweeper.
A value that was written only to the Connected Remote is instead lost
at its native expiry. -/
theorem get_is_ttl_ignoring_retrieval {α : Type} (s : CacheService α) (k : String)
    (now : Int) (fault : Bool) (hdeg : s.isRedisConnected = false) :
    CacheService.get s k now fault = .ok (s, mapGet s.globalCache k) := by
  simp [CacheService.get, hdeg]

/-- C9 witness: the entry stored at time 0 is still served at time
999999, far past its write-time TTL of 1000. -/
theorem get_is_ttl_ignoring_retrieval_witness :
    CacheService.get sLocalK "k" 999999 false = .ok (sLocalK, some ⟨7, 0⟩) :=
  get_is_ttl_ignoring_retrieval sLocalK "k" 999999 false rfl

/-! ## Claim C10 -/

/-- C10 (confirmed): `get` is read-only on every store: whatever the
state, key, time and fault behaviour, the state it returns has the same
in-memory map (no copy-in of a remote hit, no eviction, no
re-timestamping), the same remote contents, the same client and the
same `connectionAttempted` flag; the only field that can change is
`isRedisConnected`, and it changes only to `false`, only on a faulting
remote call. -/
theorem get_readonly {α : Type} (s : CacheService α) (k : String) (now : Int) (fault : Bool)
    {p : CacheService α × Option (CacheEntry α)}
    (h : CacheService.get s k now fault = .ok p) :
    p.1.globalCache = s.globalCache ∧ p.1.remote = s.remote ∧
    p.1.hasClient = s.hasClient ∧ p.1.connectionAttempted = s.connectionAttempted ∧
    (p.1.isRedisConnected = s.isRedisConnected ∨
      (p.1.isRedisConnected = false ∧ fault = true)) := by
  unfold CacheService.get at h
  split at h
  · split at h
    · injection h with h; subst h
      exact ⟨rfl, rfl, rfl, rfl, Or.inl rfl⟩
    · injection h with h; subst h
      exact ⟨rfl, rfl, rfl, rfl, Or.inl rfl⟩
    · rename_i e heq
      injection h with h; subst h
      refine ⟨rfl, rfl, rfl, rfl, Or.inr ⟨rfl, ?_⟩⟩
      cases fault with
      | false => simp [remoteGet] at heq
      | true => rfl
  · injection h with h; subst h
    exact ⟨rfl, rfl, rfl, rfl, Or.inl rfl⟩

/-- C10 witness: a remote-faulting `get` on the Connected empty state:
every field but the health flag is untouched. -/
theorem get_readonly_witness :
    sDegraded.globalCache = sConn.globalCache ∧ sDegraded.remote = sConn.remote ∧
    sDegraded.hasClient = sConn.hasClient ∧
    sDegraded.connectionAttempted = sConn.connectionAttempted ∧
    (sDegraded.isRedisConnected = sConn.isRedisConnected ∨
      (sDegraded.isRedisConnected = false ∧ true = true)) :=
  get_readonly sConn "k" 0 true rfl

end BtcCache
